import Mathlib

/-!
# Council pipeline — verification development

A shallow embedding of `council.py` (LLM Council multi-stage deliberation
pipeline): the transport caller `call_model`, the three pipeline stages
(`stage1_first_opinions`, `anonymize_answers` / `stage2_reviews`,
`parse_chairman_json` / `stage3_chairman`) and the run coordinator
`run_council`.

Modelling conventions:
* Python/JSON dynamic values are modelled by the inductive `JVal`;
  Python `None` and JSON `null` are the same object in Python and are both
  modelled by `JVal.null`.
* JSON numbers are kept as their validated lexeme (a `String`): no claim
  depends on float arithmetic, only on acceptance/rejection and on
  stringification of values that appear in concrete inputs.
* The network is external: `call_model` consumes an explicit stream of
  per-attempt transport events (`AttemptEv`), one per attempt, covering
  HTTP responses (status, `Retry-After` header, body) and raised transport
  exceptions.  Exception text produced by the external HTTP library
  (`raise_for_status`) is modelled opaquely by `raiseForStatusMsg`.
* `random.shuffle` is modelled by an explicit shuffle function parameter,
  constrained to be a permutation in the theorems.
* Wall-clock fields of the final report (`run_started_at`,
  `run_duration_seconds`) are real-time effects and are omitted from the
  embedded `RunReport`.
-/

set_option maxRecDepth 4096

/-- Dynamic Python/JSON value: `null` is both JSON `null` and Python `None`
(they are the same object in Python).  Numbers keep their validated lexeme. -/
inductive JVal where
  | null
  | bool (b : Bool)
  | num (lexeme : String)
  | str (s : String)
  | arr (elems : List JVal)
  | obj (fields : List (String × JVal))

/-- Python type name of a value, as it appears in `AttributeError` messages. -/
def pyTypeName : JVal → String
  | .null => "NoneType"
  | .bool _ => "bool"
  | .num lex => if lex.toList.any (fun c => c == '.' || c == 'e' || c == 'E' ||
      c == 'n' || c == 'f') then "float" else "int"
  | .str _ => "str"
  | .arr _ => "list"
  | .obj _ => "dict"

/-- Text of the Python `AttributeError` raised when `.attr` is accessed on a
value of type `ty` that lacks it, e.g. `'list' object has no attribute 'get'`. -/
def attrErrMsg (ty attrName : String) : String :=
  "'" ++ ty ++ "' object has no attribute '" ++ attrName ++ "'"

/-- Python truthiness of a value (`bool(v)`). -/
def pyTruthy : JVal → Bool
  | .null => false
  | .bool b => b
  | .num lex => lex.toList.any (fun c => '1' ≤ c && c ≤ '9')
  | .str s => s ≠ ""
  | .arr l => !l.isEmpty
  | .obj l => !l.isEmpty

/-- Characters stripped by Python `str.strip()` (ASCII whitespace). -/
def pySpace (c : Char) : Bool :=
  c == ' ' || c == '\t' || c == '\n' || c == '\r' || c == '\x0b' || c == '\x0c'

/-- Python `str.strip()`. -/
def pyStrip (s : String) : String :=
  (((s.toList.dropWhile pySpace).reverse.dropWhile pySpace).reverse).asString

/-- Two-digit lowercase hex of a byte, used in `repr` escapes. -/
def hexByte (n : Nat) : String :=
  let dig := fun (k : Nat) => (Nat.digitChar k)
  String.singleton (dig (n / 16 % 16)) ++ String.singleton (dig (n % 16))

/-- Python `repr` of a string: quote choice and character escaping as CPython
does for ASCII content (non-ASCII printables are kept verbatim). -/
def pyReprStr (s : String) : String :=
  let hasSingle := s.toList.contains '\x27'
  let hasDouble := s.toList.contains '"'
  let q : Char := if hasSingle && !hasDouble then '"' else '\x27'
  let esc := fun (c : Char) =>
    if c == '\\' then "\\\\"
    else if c == q then "\\" ++ String.singleton q
    else if c == '\n' then "\\n"
    else if c == '\r' then "\\r"
    else if c == '\t' then "\\t"
    else if c.toNat < 32 || c.toNat == 127 then "\\x" ++ hexByte c.toNat
    else String.singleton c
  String.singleton q ++ String.join (s.toList.map esc) ++ String.singleton q

mutual

/-- Python `repr` of a `JVal` (the element formatting used inside `str` of
containers). -/
def pyRepr : JVal → String
  | .null => "None"
  | .bool b => if b then "True" else "False"
  | .num lex => lex
  | .str s => pyReprStr s
  | .arr l => "[" ++ String.intercalate ", " (pyReprList l) ++ "]"
  | .obj fs => "\x7b" ++ String.intercalate ", " (pyReprFields fs) ++ "\x7d"

/-- `repr` of each element of a list of values. -/
def pyReprList : List JVal → List String
  | [] => []
  | v :: vs => pyRepr v :: pyReprList vs

/-- `repr` of each `key: value` entry of a dict. -/
def pyReprFields : List (String × JVal) → List String
  | [] => []
  | (k, v) :: fs => (pyReprStr k ++ ": " ++ pyRepr v) :: pyReprFields fs

end

/-- Python `str` of a `JVal`: the string itself for `str`, `repr` otherwise. -/
def pyStr : JVal → String
  | .str s => s
  | v => pyRepr v

/-- Python dict assignment `d[k] = v`: replace the first binding of `k`
(keeping its position) or append a new binding. -/
def dictSet (k : String) (v : JVal) : List (String × JVal) → List (String × JVal)
  | [] => [(k, v)]
  | (k2, v2) :: rest =>
    if k2 == k then (k, v) :: rest else (k2, v2) :: dictSet k v rest

/-- Python `d.get(k)` (default `None`) on an association list. -/
def dictGet (k : String) (d : List (String × JVal)) : JVal :=
  (d.lookup k).getD .null

/-- JSON whitespace accepted between tokens by `json.loads`. -/
def jsonWs (c : Char) : Bool :=
  c == ' ' || c == '\t' || c == '\n' || c == '\r'

/-- Drop leading JSON whitespace. -/
def skipWs (cs : List Char) : List Char :=
  cs.dropWhile jsonWs

/-- Decimal digit test. -/
def isDig (c : Char) : Bool := '0' ≤ c && c ≤ '9'

/-- Value of a hexadecimal digit character, if it is one (`0-9a-fA-F`). -/
def nibbleVal (c : Char) : Option Nat :=
  let n := c.toNat
  if 48 ≤ n ∧ n ≤ 57 then some (n - 48)
  else if 97 ≤ n ∧ n ≤ 102 then some (n - 87)
  else if 65 ≤ n ∧ n ≤ 70 then some (n - 55)
  else none

/-- Parse the body of a JSON string (after the opening quote), handling the
escape sequences of `json.loads` and rejecting raw control characters
(strict mode).  Returns the decoded characters and the remaining input. -/
def parseStrBody : Nat → List Char → Option (List Char × List Char)
  | 0, _ => none
  | _, [] => none
  | fuel + 1, c :: rest =>
    if c == '"' then some ([], rest)
    else if c == '\\' then
      match rest with
      | [] => none
      | e :: rest2 =>
        let simple : Option Char :=
          if e == '"' then some '"'
          else if e == '\\' then some '\\'
          else if e == '/' then some '/'
          else if e == 'b' then some '\x08'
          else if e == 'f' then some '\x0c'
          else if e == 'n' then some '\n'
          else if e == 'r' then some '\r'
          else if e == 't' then some '\t'
          else none
        match simple with
        | some d =>
          match parseStrBody fuel rest2 with
          | some (out, rem) => some (d :: out, rem)
          | none => none
        | none =>
          if e == 'u' then
            match rest2 with
            | h1 :: h2 :: h3 :: h4 :: rest3 =>
              match nibbleVal h1, nibbleVal h2, nibbleVal h3, nibbleVal h4 with
              | some v1, some v2, some v3, some v4 =>
                let code := ((v1 * 16 + v2) * 16 + v3) * 16 + v4
                match parseStrBody fuel rest3 with
                | some (out, rem) => some (Char.ofNat code :: out, rem)
                | none => none
              | _, _, _, _ => none
            | _ => none
          else none
    else if c.toNat < 32 then none
    else
      match parseStrBody fuel rest with
      | some (out, rem) => some (c :: out, rem)
      | none => none

/-- Parse a JSON number lexeme `-?(0|[1-9][0-9]*)(.[0-9]+)?([eE][+-]?[0-9]+)?`.
Returns the lexeme and the remaining input. -/
def parseNumLexeme (cs : List Char) : Option (List Char × List Char) :=
  let (sign, cs1) := match cs with
    | '-' :: rest => (['-'], rest)
    | rest => (([] : List Char), rest)
  match cs1 with
  | [] => none
  | c :: rest =>
    if !isDig c then none
    else
      let (intPart, cs2) :=
        if c == '0' then ([c], rest)
        else (c :: rest.takeWhile isDig, rest.dropWhile isDig)
      let (fracPart, cs3) := match cs2 with
        | '.' :: d :: rest2 =>
          if isDig d then
            ('.' :: d :: rest2.takeWhile isDig, rest2.dropWhile isDig)
          else (([] : List Char), cs2)
        | _ => ([], cs2)
      let (expPart, cs4) := match cs3 with
        | e :: rest2 =>
          if e == 'e' || e == 'E' then
            let (esign, rest3) := match rest2 with
              | s :: rest4 => if s == '+' || s == '-' then ([s], rest4) else ([], rest2)
              | [] => ([], rest2)
            match rest3 with
            | d :: _ =>
              if isDig d then
                (e :: esign ++ rest3.takeWhile isDig, rest3.dropWhile isDig)
              else (([] : List Char), cs3)
            | [] => ([], cs3)
          else ([], cs3)
        | [] => ([], cs3)
      if fracPart = [] ∧ cs2 ≠ cs3 then none
      else some (sign ++ intPart ++ fracPart ++ expPart, cs4)

mutual

/-- One JSON value, fuel-bounded recursive descent mirroring `json.loads`
(including the non-standard constants `NaN`, `Infinity`, `-Infinity` that
Python accepts by default). -/
def parseVal : Nat → List Char → Option (JVal × List Char)
  | 0, _ => none
  | fuel + 1, cs =>
    match cs with
    | [] => none
    | 'n' :: 'u' :: 'l' :: 'l' :: rest => some (.null, rest)
    | 't' :: 'r' :: 'u' :: 'e' :: rest => some (.bool true, rest)
    | 'f' :: 'a' :: 'l' :: 's' :: 'e' :: rest => some (.bool false, rest)
    | 'N' :: 'a' :: 'N' :: rest => some (.num "NaN", rest)
    | 'I' :: 'n' :: 'f' :: 'i' :: 'n' :: 'i' :: 't' :: 'y' :: rest =>
      some (.num "Infinity", rest)
    | '-' :: 'I' :: 'n' :: 'f' :: 'i' :: 'n' :: 'i' :: 't' :: 'y' :: rest =>
      some (.num "-Infinity", rest)
    | '"' :: rest =>
      match parseStrBody (rest.length + 1) rest with
      | some (out, rem) => some (.str out.asString, rem)
      | none => none
    | '[' :: rest =>
      match skipWs rest with
      | ']' :: rem => some (.arr [], rem)
      | cs2 => parseArrElems fuel cs2 []
    | '\x7b' :: rest =>
      match skipWs rest with
      | '\x7d' :: rem => some (.obj [], rem)
      | cs2 => parseObjFields fuel cs2 []
    | _ => match parseNumLexeme cs with
      | some (lex, rem) => some (.num lex.asString, rem)
      | none => none

/-- Array elements after the first non-`]` token, accumulating in order. -/
def parseArrElems : Nat → List Char → List JVal → Option (JVal × List Char)
  | 0, _, _ => none
  | fuel + 1, cs, acc =>
    match parseVal fuel cs with
    | none => none
    | some (v, rem) =>
      match skipWs rem with
      | ',' :: rem2 => parseArrElems fuel (skipWs rem2) (acc ++ [v])
      | ']' :: rem2 => some (.arr (acc ++ [v]), rem2)
      | _ => none

/-- Object members after the first non-closing token; duplicate keys
overwrite in place, as `json.loads` builds a `dict`. -/
def parseObjFields : Nat → List Char → List (String × JVal) →
    Option (JVal × List Char)
  | 0, _, _ => none
  | fuel + 1, cs, acc =>
    match cs with
    | '"' :: rest =>
      match parseStrBody (rest.length + 1) rest with
      | none => none
      | some (key, rem) =>
        match skipWs rem with
        | ':' :: rem2 =>
          match parseVal fuel (skipWs rem2) with
          | none => none
          | some (v, rem3) =>
            let acc2 := dictSet key.asString v acc
            match skipWs rem3 with
            | ',' :: rem4 => parseObjFields fuel (skipWs rem4) acc2
            | '\x7d' :: rem4 => some (.obj acc2, rem4)
            | _ => none
        | _ => none
    | _ => none

end

/-- `json.loads`: one JSON document with only whitespace around it; any
failure is a `JSONDecodeError`, modelled as `none`. -/
def jsonLoads (s : String) : Option JVal :=
  match parseVal (4 * (s.length + 2)) (skipWs s.toList) with
  | some (v, rem) => if skipWs rem = [] then some v else none
  | none => none

/-- Acceptance of Python `float(s)`: optional sign, then a decimal literal
(`digits[.digits][exp]` or `.digits[exp]`) or `inf`/`infinity`/`nan`
(case-insensitive), with surrounding whitespace allowed. -/
def pyFloatAccepts (s : String) : Bool :=
  let t := (pyStrip s).toList.map Char.toLower
  let t := match t with
    | '+' :: r => r
    | '-' :: r => r
    | r => r
  if t = ['i', 'n', 'f'] || t = ['i', 'n', 'f', 'i', 'n', 'i', 't', 'y'] ||
      t = ['n', 'a', 'n'] then true
  else
    let (intPart, t1) := (t.takeWhile isDig, t.dropWhile isDig)
    let (fracPart, t2) := match t1 with
      | '.' :: r => (r.takeWhile isDig, r.dropWhile isDig)
      | _ => ([], t1)
    let hasFracDot := match t1 with
      | '.' :: _ => true
      | _ => false
    if intPart = [] ∧ fracPart = [] then false
    else if !hasFracDot ∧ t2 ≠ t1 then false
    else match t2 with
      | [] => true
      | 'e' :: r =>
        let r2 := match r with
          | '+' :: r3 => r3
          | '-' :: r3 => r3
          | r3 => r3
        r2 ≠ [] ∧ r2.all isDig
      | _ => false

/-- Text of the `ValueError` raised by `float(s)` on a non-numeric string. -/
def floatConvErrMsg (s : String) : String :=
  "could not convert string to float: " ++ pyReprStr s

/-- Message of the `httpx.HTTPStatusError` raised by `resp.raise_for_status()`
for a non-2xx status.  The exact text comes from the external HTTP library and
is modelled opaquely; no claim depends on its content. -/
def raiseForStatusMsg (status : Nat) : String :=
  "HTTP status error for status " ++ toString status

/-- Body of an HTTP response as consumed by `resp.json()`: either not valid
JSON (the decode error text raised) or a decoded value. -/
inductive RBody where
  | notJson (err : String)
  | json (v : JVal)

/-- One transport event per attempt: either `client.post` (or the timeout)
raised an exception, or a response arrived with a status code, an optional
`Retry-After` header value, and a body. -/
inductive AttemptEv where
  | exn (msg : String)
  | resp (status : Nat) (retryAfter : Option String) (body : RBody)

/-- Outcome of the `try` body of one attempt of `call_model`:
* `success text`   — a valid choice with non-null string content was returned;
* `rateLimited s`  — status 429 or ≥ 500 with a usable wait value (retried
  with backoff, or reported as `HTTP s after N attempts` on the last attempt);
* `failRetryable e` — every other path: a raised exception (transport error,
  `float()` of a non-numeric `Retry-After`, `raise_for_status` on a non-2xx
  status, a non-JSON body, attribute errors on unexpectedly-shaped values) or
  a malformed-but-200 body, all of which set `error` and fall through to the
  shared retry-or-fail block. -/
inductive StepRes where
  | success (text : String)
  | rateLimited (status : Nat)
  | failRetryable (err : String)

/-- One attempt of the `call_model` loop body (src/council.py lines 51-94). -/
def callStep : AttemptEv → StepRes
  | .exn msg => .failRetryable msg
  | .resp status retryAfter body =>
    if status == 429 || 500 ≤ status then
      match retryAfter with
      | some s =>
        if pyFloatAccepts s then .rateLimited status
        else .failRetryable (floatConvErrMsg s)
      | none => .rateLimited status
    else if status < 200 || 300 ≤ status then
      .failRetryable (raiseForStatusMsg status)
    else match body with
      | .notJson err => .failRetryable err
      | .json data =>
        match data with
        | .obj fs =>
          match dictGet "choices" fs with
          | .arr (c0 :: _) =>
            match c0 with
            | .obj cfs =>
              match (cfs.lookup "message").getD (.obj []) with
              | .obj mfs =>
                match dictGet "content" mfs with
                | .null => .failRetryable "Invalid API response: missing message content"
                | .str s => .success (pyStrip s)
                | v => .failRetryable (attrErrMsg (pyTypeName v) "strip")
              | mv => .failRetryable (attrErrMsg (pyTypeName mv) "get")
            | cv => .failRetryable (attrErrMsg (pyTypeName cv) "get")
          | _ => .failRetryable "Invalid API response: missing or empty choices"
        | dv => .failRetryable (attrErrMsg (pyTypeName dv) "get")

/-- Retry budget of `call_model`. -/
def MAX_RETRIES : Nat := 2

/-- Minimum number of successful councilors required by Stage 1. -/
def MIN_QUORUM : Nat := 2

/-- The attempt loop of `call_model`, starting from attempt number `attempt`
with `fuel` loop iterations remaining (`fuel = MAX_RETRIES + 1 - attempt` at
every reachable call).  Returns the `(success, content)` pair together with
the number of attempts actually consumed. -/
def callModelGo (tag : String) (ev : Nat → AttemptEv) :
    Nat → Nat → (Bool × String) × Nat
  | _, 0 => ((false, tag ++ ": unknown error"), 0)
  | attempt, fuel + 1 =>
    match callStep (ev attempt) with
    | .success text => ((true, text), 1)
    | .rateLimited status =>
      if attempt < MAX_RETRIES then
        let r := callModelGo tag ev (attempt + 1) fuel
        (r.1, r.2 + 1)
      else
        ((false, tag ++ ": HTTP " ++ toString status ++ " after " ++
          toString (MAX_RETRIES + 1) ++ " attempts"), 1)
    | .failRetryable err =>
      if attempt < MAX_RETRIES then
        let r := callModelGo tag ev (attempt + 1) fuel
        (r.1, r.2 + 1)
      else ((false, tag ++ ": " ++ err), 1)

/-- `call_model`: up to `MAX_RETRIES + 1` attempts against the event stream
`ev`; the display tag is `label or model` (Python falsiness of `""`).
Returns the `(success, content)` outcome and the attempt count. -/
def call_model (model : String) (ev : Nat → AttemptEv) (label : String) :
    (Bool × String) × Nat :=
  let tag := if label == "" then model else label
  callModelGo tag ev 0 (MAX_RETRIES + 1)

/-- A 200 response whose body has one choice with string `content`. -/
def goodEv (content : String) : AttemptEv :=
  .resp 200 none (.json (.obj
    [("choices", .arr [.obj [("message", .obj [("content", .str content)])]])]))

/-- The greedy `(?:json)?` right after an opening fence: consume a literal
`json` language tag when it immediately follows. -/
def afterJsonTag (cs : List Char) : List Char :=
  match cs with
  | 'j' :: 's' :: 'o' :: 'n' :: rest => rest
  | _ => cs

/-- Characters up to (excluding) the next occurrence of a closing
triple-backtick, or `none` if there is no closing fence. -/
def takeUntilTick : List Char → Option (List Char)
  | '\x60' :: '\x60' :: '\x60' :: _ => some []
  | c :: rest => (takeUntilTick rest).map (c :: ·)
  | [] => none

/-- Fuel-bounded scan for `fenceSearch`; the fuel strictly exceeds the input
length, and every recursive call shortens the input by one character. -/
def fenceSearchGo : Nat → List Char → Option String
  | 0, _ => none
  | fuel + 1, cs =>
    match cs with
    | '\x60' :: '\x60' :: '\x60' :: rest =>
      match takeUntilTick (afterJsonTag rest) with
      | some content => some content.asString
      | none => fenceSearchGo fuel ('\x60' :: '\x60' :: rest)
    | _ :: rest => fenceSearchGo fuel rest
    | [] => none

/-- Leftmost match of the fence regex of strategy 2,
`` ```(?:json)?\s*(.*?)\s*``` `` with DOTALL: try each start position in
order; at an opening triple-backtick, optionally consume a `json` tag and
take the lazy group up to the next triple-backtick.  The `\s*` borders are
immaterial because the caller strips the group before parsing. -/
def fenceSearch (cs : List Char) : Option String :=
  fenceSearchGo (cs.length + 1) cs

/-- Leftmost match of the greedy brace regex of strategy 3 (`\x7b[\s\S]*\x7d`):
the span from the first opening brace to the last closing brace, when the
latter comes after the former. -/
def braceExtract (raw : String) : Option String :=
  let cs := raw.toList
  match cs.findIdx? (· == '\x7b'), (cs.reverse.findIdx? (· == '\x7d')) with
  | some i, some rj =>
    let j := cs.length - 1 - rj
    if i < j then some (((cs.drop i).take (j - i + 1)).asString) else none
  | _, _ => none

/-- Strategy 1 of `parse_chairman_json`: direct parse of the stripped reply. -/
def strat1 (raw : String) : Option JVal :=
  jsonLoads (pyStrip raw)

/-- Strategy 2: extract a fenced block and parse its stripped interior. -/
def strat2 (raw : String) : Option JVal :=
  (fenceSearch raw.toList).bind fun g => jsonLoads (pyStrip g)

/-- Strategy 3: parse the outermost brace span. -/
def strat3 (raw : String) : Option JVal :=
  (braceExtract raw).bind jsonLoads

/-- `parse_chairman_json`: the three strategies in order, first success wins;
if all fail the function returns Python `None` (`JVal.null`) — which is also
what a successful parse of the document `null` yields, exactly as in Python. -/
def parse_chairman_json (raw : String) : JVal :=
  (((strat1 raw).orElse fun _ => strat2 raw).orElse fun _ => strat3 raw).getD .null

/-- Expected shape of a synthesis field: text with a default, or a list. -/
inductive FieldKind where
  | fstr (dflt : String)
  | flist
deriving DecidableEq

/-- The `_SCHEMA` table of `stage3_chairman`: key, expected type, default. -/
def SCHEMA : List (String × FieldKind) :=
  [("executive_summary", .fstr ""),
   ("deliverables", .flist),
   ("success_criteria", .flist),
   ("phases", .flist),
   ("risks", .flist),
   ("moats", .flist),
   ("strategic_priorities", .flist),
   ("resource_considerations", .fstr ""),
   ("go_no_go_criteria", .flist),
   ("disagreements", .flist),
   ("confidence", .fstr "unknown"),
   ("confidence_note", .fstr "")]

/-- One iteration of the `_SCHEMA` validation loop: read the field, and when
its shape is wrong assign `str(val)` for a text field with non-null value,
and the default otherwise. -/
def schemaStep (d : List (String × JVal)) (entry : String × FieldKind) :
    List (String × JVal) :=
  let (key, kind) := entry
  let val := dictGet key d
  match kind with
  | .fstr dflt =>
    match val with
    | .str _ => d
    | .null => dictSet key (.str dflt) d
    | v => dictSet key (.str (pyStr v)) d
  | .flist =>
    match val with
    | .arr _ => d
    | _ => dictSet key (.arr []) d

/-- The value a schema field holds after the loop, as a function of the value
it held before (`null` standing for a missing key). -/
def coerceVal : FieldKind → JVal → JVal
  | .fstr dflt, v =>
    match v with
    | .str s => .str s
    | .null => .str dflt
    | v => .str (pyStr v)
  | .flist, v =>
    match v with
    | .arr l => .arr l
    | _ => .arr []

/-- The `_SCHEMA` validation of `stage3_chairman` (src/council.py 402-420):
runs the coercion loop on a dict; on any non-dict value the very first
`synthesis.get(key)` raises `AttributeError`, which propagates. -/
def validateSchema : JVal → Except String (List (String × JVal))
  | .obj d => .ok (SCHEMA.foldl schemaStep d)
  | v => .error (attrErrMsg (pyTypeName v) "get")

/-- The fixed synthesis record returned when the chairman transport call
fails (src/council.py 364-377). -/
def chairFailRecord (raw : String) : List (String × JVal) :=
  [("executive_summary", .str ("Chairman failed to respond: " ++ raw)),
   ("deliverables", .arr []),
   ("success_criteria", .arr []),
   ("phases", .arr []),
   ("risks", .arr []),
   ("moats", .arr []),
   ("strategic_priorities", .arr []),
   ("resource_considerations", .str ""),
   ("go_no_go_criteria", .arr []),
   ("disagreements", .arr []),
   ("confidence", .str "unknown"),
   ("confidence_note", .str "Chairman call failed.")]

/-- The degraded synthesis record used when no JSON could be extracted from
the chairman's reply (src/council.py 387-400). -/
def parseFailRecord (raw : String) : List (String × JVal) :=
  [("executive_summary", .str raw),
   ("deliverables", .arr []),
   ("success_criteria", .arr []),
   ("phases", .arr []),
   ("risks", .arr []),
   ("moats", .arr []),
   ("strategic_priorities", .arr []),
   ("resource_considerations", .str ""),
   ("go_no_go_criteria", .arr []),
   ("disagreements", .arr []),
   ("confidence", .str "unknown"),
   ("confidence_note", .str "Chairman response could not be parsed as JSON.")]

/-- `stage3_chairman`, from the chairman's transport outcome onward (the
prompt assembly affects only the request, not the returned record).  A failed
call returns the fixed failure record immediately; otherwise the reply is
parsed, a `None` result is replaced by the degraded record, and the result
goes through the `_SCHEMA` validation (whose `AttributeError` on a non-dict
propagates as `.error`). -/
def stage3_chairman (chair : Bool × String) : Except String (List (String × JVal)) :=
  let (ok, raw) := chair
  if !ok then .ok (chairFailRecord raw)
  else
    let synthesis := parse_chairman_json raw
    let synthesis := match synthesis with
      | .null => JVal.obj (parseFailRecord raw)
      | v => v
    validateSchema synthesis

/-- A councilor of the static roster. -/
structure Councilor where
  id : String
  model : String
  label : String
  role : String
deriving DecidableEq, Repr

/-- The statically configured roster (src/council.py 25-30). -/
def COUNCILORS : List Councilor :=
  [⟨"deepseek-r1", "deepseek/deepseek-r1-0528:free", "DeepSeek R1", "Reasoner"⟩,
   ⟨"hermes-405b", "nousresearch/hermes-3-llama-3.1-405b:free", "Hermes 3 405B", "Knowledge"⟩,
   ⟨"qwen3-coder", "qwen/qwen3-coder:free", "Qwen3 Coder 480B", "Structuralist"⟩,
   ⟨"llama-33-70b", "meta-llama/llama-3.3-70b-instruct:free", "Llama 3.3 70B", "Generalist"⟩]

/-- The chairman's label (`CHAIRMAN["label"]`). -/
def CHAIRMAN_label : String := "Kimi K2.5 (Chairman)"

/-- A Stage 1 success record `(councilor merged with its answer)`. -/
structure AnswerRec where
  id : String
  model : String
  label : String
  role : String
  answer : String
deriving DecidableEq, Repr

/-- An error record `(model label, reason)` as appended to the error lists. -/
structure ErrRec where
  model : String
  error : String
deriving DecidableEq, Repr

/-- A Stage 2 success record `(answer record merged with its review)`. -/
structure ReviewRec where
  id : String
  model : String
  label : String
  role : String
  answer : String
  review : String
deriving DecidableEq, Repr

/-- Partition of Stage 1 per-councilor outcomes (in roster order, as
`zip(COUNCILORS, results)` delivers them) into successes and failures. -/
def partitionResults : List (Councilor × (Bool × String)) →
    List AnswerRec × List ErrRec
  | [] => ([], [])
  | (c, (ok, content)) :: rest =>
    let (s, e) := partitionResults rest
    if ok then (⟨c.id, c.model, c.label, c.role, content⟩ :: s, e)
    else (s, ⟨c.label, content⟩ :: e)

/-- Python `", ".join`. -/
def joinComma : List String → String
  | [] => ""
  | [x] => x
  | x :: xs => x ++ ", " ++ joinComma xs

/-- Python `repr` of one Stage 1 error dict (insertion order `model, error`). -/
def pyReprErr (e : ErrRec) : String :=
  "\x7b'model': " ++ pyReprStr e.model ++ ", 'error': " ++ pyReprStr e.error ++ "\x7d"

/-- Python `repr` of the collected Stage 1 error dicts, as interpolated into
the quorum error message (`f"... Errors: \x7berrors\x7d"`). -/
def pyReprErrList (errs : List ErrRec) : String :=
  "[" ++ joinComma (errs.map pyReprErr) ++ "]"

/-- The `RuntimeError` message raised by the Stage 1 quorum gate. -/
def quorumMessage (nSucc : Nat) (errs : List ErrRec) : String :=
  "Only " ++ toString nSucc ++ " councilor(s) succeeded — minimum " ++
    toString MIN_QUORUM ++ " required. Errors: " ++ pyReprErrList errs

/-- `stage1_first_opinions` from the gathered transport outcomes onward
(src/council.py 140-156): partition into successes and errors, then apply the
quorum gate; a shortfall raises `RuntimeError` (modelled as `.error`). -/
def stage1_first_opinions (results : List (Bool × String)) :
    Except String (List AnswerRec × List ErrRec) :=
  let (successes, errors) := partitionResults (COUNCILORS.zip results)
  if successes.length < MIN_QUORUM then
    .error (quorumMessage successes.length errors)
  else .ok (successes, errors)

/-- Opaque review label for position `i`: `f"Model \x7bchr(65 + i)\x7d"`. -/
def modelLabel (i : Nat) : String :=
  "Model " ++ String.singleton (Char.ofNat (65 + i))

/-- The anonymized bundle of `anonymize_answers` as a list of
`(opaque label, answer text)` sections, with `random.shuffle` modelled by the
explicit `shuffle` parameter. -/
def anonymizeSections (answers : List AnswerRec) (exclude_id : String)
    (shuffle : List AnswerRec → List AnswerRec) : List (String × String) :=
  let others := answers.filter fun a => a.id != exclude_id
  let others := shuffle others
  let labels := (List.range others.length).map modelLabel
  (labels.zip others).map fun p => (p.1, p.2.answer)

/-- `anonymize_answers` (src/council.py 161-170): the joined section text. -/
def anonymize_answers (answers : List AnswerRec) (exclude_id : String)
    (shuffle : List AnswerRec → List AnswerRec) : String :=
  String.intercalate "\n\n---\n\n"
    ((anonymizeSections answers exclude_id shuffle).map fun p =>
      "**" ++ p.1 ++ ":**\n" ++ p.2)

/-- Partition of Stage 2 per-reviewer outcomes into review records and
errors, in the order of the surviving answers. -/
def partitionReviews : List (AnswerRec × (Bool × String)) →
    List ReviewRec × List ErrRec
  | [] => ([], [])
  | (a, (ok, content)) :: rest =>
    let (s, e) := partitionReviews rest
    if ok then (⟨a.id, a.model, a.label, a.role, a.answer, content⟩ :: s, e)
    else (s, ⟨a.label, content⟩ :: e)

/-- `stage2_reviews` from the gathered outcomes onward (src/council.py
218-228): one review task per surviving answer, no quorum gate.  The
anonymized prompt built per reviewer only affects the request, not the
returned records; `res` gives each reviewer's transport outcome. -/
def stage2_reviews (answers : List AnswerRec) (res : AnswerRec → Bool × String) :
    List ReviewRec × List ErrRec :=
  partitionReviews (answers.map fun a => (a, res a))

/-- The externally visible artifact of `run_council` (src/council.py
454-480).  Wall-clock fields are omitted (see the module docstring). -/
structure RunReport where
  question : String
  executive_summary : JVal
  deliverables : JVal
  success_criteria : JVal
  phases : JVal
  risks : JVal
  moats : JVal
  strategic_priorities : JVal
  resource_considerations : JVal
  go_no_go_criteria : JVal
  disagreements : JVal
  confidence : JVal
  confidence_note : JVal
  individual_answers : List (String × String)
  peer_reviews : List (String × String)
  chairman : String
  council : List String
  stage2_skipped : Bool
  errors : List ErrRec

/-- `run_council` (src/council.py 428-482) over explicit transport outcomes:
`s1` are the Stage 1 outcomes in roster order, `res2` the per-reviewer Stage 2
outcomes, `chair` the chairman call outcome.  A Stage 1 quorum failure
(`RuntimeError`) or a Stage 3 `AttributeError` propagates as `.error`. -/
def run_council (question : String) (s1 : List (Bool × String))
    (res2 : AnswerRec → Bool × String) (chair : Bool × String) (fast : Bool) :
    Except String RunReport :=
  match stage1_first_opinions s1 with
  | .error e => .error e
  | .ok (answers, stage1_errors) =>
    let stage2 : Option (List ReviewRec) × List ErrRec :=
      if fast then (none, [])
      else
        let (rs, es) := stage2_reviews answers res2
        (some rs, es)
    let (reviews, stage2_errors) := stage2
    let all_errors := stage1_errors ++ stage2_errors
    match stage3_chairman chair with
    | .error e => .error e
    | .ok synthesis =>
      .ok
        { question := question
          executive_summary := dictGet "executive_summary" synthesis
          deliverables := dictGet "deliverables" synthesis
          success_criteria := dictGet "success_criteria" synthesis
          phases := dictGet "phases" synthesis
          risks := dictGet "risks" synthesis
          moats := dictGet "moats" synthesis
          strategic_priorities := dictGet "strategic_priorities" synthesis
          resource_considerations := dictGet "resource_considerations" synthesis
          go_no_go_criteria := dictGet "go_no_go_criteria" synthesis
          disagreements := dictGet "disagreements" synthesis
          confidence := dictGet "confidence" synthesis
          confidence_note := dictGet "confidence_note" synthesis
          individual_answers := answers.map fun a => (a.label, a.answer)
          peer_reviews := (reviews.getD []).map fun r => (r.label, r.review)
          chairman := CHAIRMAN_label
          council := COUNCILORS.map (·.label)
          stage2_skipped := fast
          errors := all_errors }

/-- A step outcome that goes through retry-or-fail rather than succeeding. -/
def stepRetries : StepRes → Bool
  | .success _ => false
  | .rateLimited _ => true
  | .failRetryable _ => true

/-- A transient transport failure in the sense of the spec: a raised
exception, or a response with a rate-limit (429) or server-error (≥ 500)
status. -/
def TransientEv (e : AttemptEv) : Prop :=
  (∃ m, e = .exn m) ∨
  ∃ status ra body, e = .resp status ra body ∧ (status = 429 ∨ 500 ≤ status)

theorem callStep_goodEv (c : String) : callStep (goodEv c) = .success (pyStrip c) := rfl

theorem transient_stepRetries {e : AttemptEv} (h : TransientEv e) :
    stepRetries (callStep e) = true := by
  rcases h with ⟨m, rfl⟩ | ⟨status, ra, body, rfl, hs⟩
  · rfl
  · have hcond : (status == 429 || decide (500 ≤ status)) = true := by
      rcases hs with h | h
      · subst h; rfl
      · simp [h]
    cases ra <;> simp only [callStep, hcond, if_true] <;>
      first
        | rfl
        | (rename_i s; by_cases hf : pyFloatAccepts s <;> simp [hf, stepRetries])

theorem go_success {tag : String} {ev : Nat → AttemptEv} {attempt fuel : Nat}
    {t : String} (h : callStep (ev attempt) = .success t) :
    callModelGo tag ev attempt (fuel + 1) = ((true, t), 1) := by
  simp [callModelGo, h]

theorem go_retry {tag : String} {ev : Nat → AttemptEv} {attempt fuel : Nat}
    (h : stepRetries (callStep (ev attempt)) = true) (hlt : attempt < MAX_RETRIES) :
    callModelGo tag ev attempt (fuel + 1) =
      ((callModelGo tag ev (attempt + 1) fuel).1,
        (callModelGo tag ev (attempt + 1) fuel).2 + 1) := by
  cases hstep : callStep (ev attempt) with
  | success t => rw [hstep] at h; simp [stepRetries] at h
  | rateLimited s => simp [callModelGo, hstep, hlt]
  | failRetryable e => simp [callModelGo, hstep, hlt]

theorem go_budget (tag : String) (ev : Nat → AttemptEv) :
    ∀ fuel attempt, (callModelGo tag ev attempt fuel).2 ≤ fuel := by
  intro fuel
  induction fuel with
  | zero => intro attempt; simp [callModelGo]
  | succ n ih =>
    intro attempt
    cases hstep : callStep (ev attempt) with
    | success t => simp [callModelGo, hstep]
    | rateLimited s =>
      by_cases hlt : attempt < MAX_RETRIES
      · simp only [callModelGo, hstep]
        simpa [hlt] using Nat.succ_le_succ (ih (attempt + 1))
      · simp [callModelGo, hstep, hlt]
    | failRetryable e =>
      by_cases hlt : attempt < MAX_RETRIES
      · simp only [callModelGo, hstep]
        simpa [hlt] using Nat.succ_le_succ (ih (attempt + 1))
      · simp [callModelGo, hstep, hlt]

theorem go_tagged_failure (tag : String) (ev : Nat → AttemptEv) :
    ∀ fuel attempt, (callModelGo tag ev attempt fuel).1.1 = false →
      ∃ rest, (callModelGo tag ev attempt fuel).1.2 = tag ++ ": " ++ rest := by
  intro fuel
  induction fuel with
  | zero =>
    intro attempt _
    exact ⟨"unknown error", by simp [callModelGo, String.append_assoc]⟩
  | succ n ih =>
    intro attempt hfail
    cases hstep : callStep (ev attempt) with
    | success t => simp [callModelGo, hstep] at hfail
    | rateLimited s =>
      by_cases hlt : attempt < MAX_RETRIES
      · rw [go_retry (by simp [hstep, stepRetries]) hlt] at hfail ⊢
        exact ih (attempt + 1) hfail
      · refine ⟨"HTTP " ++ toString s ++ " after " ++ toString (MAX_RETRIES + 1) ++
          " attempts", ?_⟩
        have h1 : (": " : String) ++ "HTTP " = ": HTTP " := rfl
        simp only [callModelGo, hstep, hlt, if_false]
        simp [String.append_assoc]
        rw [← h1, String.append_assoc]
    | failRetryable e =>
      by_cases hlt : attempt < MAX_RETRIES
      · rw [go_retry (by simp [hstep, stepRetries]) hlt] at hfail ⊢
        exact ih (attempt + 1) hfail
      · exact ⟨e, by simp [callModelGo, hstep, hlt, String.append_assoc]⟩

theorem call_model_retry_then_success {model label : String} {ev : Nat → AttemptEv}
    {t : String} (h0 : stepRetries (callStep (ev 0)) = true)
    (h1 : callStep (ev 1) = .success t) :
    call_model model ev label = ((true, t), 2) := by
  cases hstep : callStep (ev 0) with
  | success u => rw [hstep] at h0; simp [stepRetries] at h0
  | rateLimited s => simp [call_model, callModelGo, hstep, h1, MAX_RETRIES]
  | failRetryable e => simp [call_model, callModelGo, hstep, h1, MAX_RETRIES]

theorem call_model_exhaust_fail {model label : String} {ev : Nat → AttemptEv}
    {e : String} (h0 : stepRetries (callStep (ev 0)) = true)
    (h1 : stepRetries (callStep (ev 1)) = true)
    (h2 : callStep (ev 2) = .failRetryable e) :
    call_model model ev label =
      ((false, (if label == "" then model else label) ++ ": " ++ e), 3) := by
  cases hs0 : callStep (ev 0) with
  | success u => rw [hs0] at h0; simp [stepRetries] at h0
  | rateLimited s0 =>
    cases hs1 : callStep (ev 1) with
    | success u => rw [hs1] at h1; simp [stepRetries] at h1
    | rateLimited s1 => simp [call_model, callModelGo, hs0, hs1, h2, MAX_RETRIES]
    | failRetryable e1 => simp [call_model, callModelGo, hs0, hs1, h2, MAX_RETRIES]
  | failRetryable e0 =>
    cases hs1 : callStep (ev 1) with
    | success u => rw [hs1] at h1; simp [stepRetries] at h1
    | rateLimited s1 => simp [call_model, callModelGo, hs0, hs1, h2, MAX_RETRIES]
    | failRetryable e1 => simp [call_model, callModelGo, hs0, hs1, h2, MAX_RETRIES]

theorem call_model_exhaust_rl {model label : String} {ev : Nat → AttemptEv}
    {s : Nat} (h0 : stepRetries (callStep (ev 0)) = true)
    (h1 : stepRetries (callStep (ev 1)) = true)
    (h2 : callStep (ev 2) = .rateLimited s) :
    call_model model ev label =
      ((false, (if label == "" then model else label) ++ ": HTTP " ++ toString s ++
        " after " ++ toString (MAX_RETRIES + 1) ++ " attempts"), 3) := by
  cases hs0 : callStep (ev 0) with
  | success u => rw [hs0] at h0; simp [stepRetries] at h0
  | rateLimited s0 =>
    cases hs1 : callStep (ev 1) with
    | success u => rw [hs1] at h1; simp [stepRetries] at h1
    | rateLimited s1 => simp [call_model, callModelGo, hs0, hs1, h2, MAX_RETRIES]
    | failRetryable e1 => simp [call_model, callModelGo, hs0, hs1, h2, MAX_RETRIES]
  | failRetryable e0 =>
    cases hs1 : callStep (ev 1) with
    | success u => rw [hs1] at h1; simp [stepRetries] at h1
    | rateLimited s1 => simp [call_model, callModelGo, hs0, hs1, h2, MAX_RETRIES]
    | failRetryable e1 => simp [call_model, callModelGo, hs0, hs1, h2, MAX_RETRIES]

/-- **C5.** The transport caller makes at most `MAX_RETRIES + 1` attempts per
call; a single transient failure followed by a success yields exactly two
attempts and a successful outcome; continuous transient failure yields
exactly `MAX_RETRIES + 1` attempts and a failure outcome whose message
includes the caller's label (the tag is `label or model`, so it starts with
the label whenever one is given). -/
theorem C5_retry_budget :
    (∀ model label ev, (call_model model ev label).2 ≤ MAX_RETRIES + 1) ∧
    (∀ model label ev c, TransientEv (ev 0) → ev 1 = goodEv c →
      call_model model ev label = ((true, pyStrip c), 2)) ∧
    (∀ model label ev, (∀ i, TransientEv (ev i)) →
      (call_model model ev label).1.1 = false ∧
      (call_model model ev label).2 = MAX_RETRIES + 1 ∧
      ∃ rest, (call_model model ev label).1.2 =
        (if label == "" then model else label) ++ ": " ++ rest) := by
  refine ⟨?_, ?_, ?_⟩
  · intro model label ev
    exact go_budget _ ev (MAX_RETRIES + 1) 0
  · intro model label ev c ht hev1
    exact call_model_retry_then_success (transient_stepRetries ht)
      (by rw [hev1]; exact callStep_goodEv c)
  · intro model label ev ht
    have h0 := transient_stepRetries (ht 0)
    have h1 := transient_stepRetries (ht 1)
    have h2 := transient_stepRetries (ht 2)
    cases hs2 : callStep (ev 2) with
    | success u => rw [hs2] at h2; simp [stepRetries] at h2
    | rateLimited s =>
      rw [call_model_exhaust_rl h0 h1 hs2]
      refine ⟨rfl, rfl, ?_⟩
      refine ⟨"HTTP " ++ toString s ++ " after " ++ toString (MAX_RETRIES + 1) ++
        " attempts", ?_⟩
      have hx : (": " : String) ++ "HTTP " = ": HTTP " := rfl
      simp only [String.append_assoc]
      rw [← hx, String.append_assoc]
    | failRetryable e =>
      rw [call_model_exhaust_fail h0 h1 hs2]
      exact ⟨rfl, rfl, e, rfl⟩

/-- Events for the C5 witness: one server error, then a good answer. -/
def evTransientGood : Nat → AttemptEv :=
  fun i => if i == 0 then .resp 503 none (.json .null) else goodEv "fine"

/-- Events for the C5 witness: a server error on every attempt. -/
def evAllDown : Nat → AttemptEv := fun _ => .resp 503 none (.json .null)

theorem C5_retry_budget_witness :
    call_model "m" evTransientGood "Lbl" = ((true, "fine"), 2) ∧
    (call_model "m" evAllDown "Lbl").1.1 = false ∧
    (call_model "m" evAllDown "Lbl").2 = 3 ∧
    ∃ rest, (call_model "m" evAllDown "Lbl").1.2 = "Lbl" ++ ": " ++ rest := by
  have htr : TransientEv (evTransientGood 0) := by
    exact Or.inr ⟨503, none, .json .null, rfl, Or.inr (by decide)⟩
  have h1 := C5_retry_budget.2.1 "m" "Lbl" evTransientGood "fine" htr rfl
  have h2 := C5_retry_budget.2.2 "m" "Lbl" evAllDown
    (fun i => Or.inr ⟨503, none, .json .null, rfl, Or.inr (by decide)⟩)
  refine ⟨by simpa using h1, h2.1, h2.2.1, ?_⟩
  obtain ⟨rest, hrest⟩ := h2.2.2
  exact ⟨rest, by simpa using hrest⟩

/-- Events refuting C6: a malformed 200 (valid JSON body without `choices`)
on the first attempt, then a good response. -/
def evMalformedThenGood : Nat → AttemptEv :=
  fun i => if i == 0 then .resp 200 none (.json (.obj [])) else goodEv "ok"

/-- **C6 counterexample.** The claim says a malformed-but-200 response is
terminal for the attempt loop (no retry on the next attempt); on the code a
malformed 200 falls through to the shared retry block, so the next attempt
runs and here succeeds: two attempts, successful outcome — contradicting the
claimed termination after the malformed response. -/
theorem C6_counterexample :
    call_model "m" evMalformedThenGood "Lbl" = ((true, "ok"), 2) := by rfl

/-- **C6 (amended).** A malformed-but-200 response (body parses as JSON but
lacks a usable `choices`/content, without itself throwing) is treated as a
failure for that attempt and goes through the shared retry-or-fail block: it
is retried on the next attempt while attempts remain, and only on the final
attempt does it terminate the call, with a failure outcome carrying the
malformation message. -/
theorem C6_malformed_retried :
    (∀ model label ev c ra, ev 0 = .resp 200 ra (.json (.obj [])) →
      ev 1 = goodEv c → call_model model ev label = ((true, pyStrip c), 2)) ∧
    (∀ model label ev c ra mfs,
      ev 0 = .resp 200 ra (.json (.obj
        [("choices", .arr [.obj [("message", .obj mfs)]])])) →
      mfs.lookup "content" = none → ev 1 = goodEv c →
      call_model model ev label = ((true, pyStrip c), 2)) ∧
    (∀ model label ev ra, (∀ i, ev i = .resp 200 ra (.json (.obj []))) →
      call_model model ev label = ((false,
        (if label == "" then model else label) ++ ": " ++
          "Invalid API response: missing or empty choices"), 3)) := by
  have hstep : ∀ ra, callStep (.resp 200 ra (.json (.obj []))) =
      .failRetryable "Invalid API response: missing or empty choices" := by
    intro ra; simp [callStep, dictGet]
  refine ⟨?_, ?_, ?_⟩
  · intro model label ev c ra hev0 hev1
    refine call_model_retry_then_success ?_ (by rw [hev1]; exact callStep_goodEv c)
    rw [hev0, hstep]; rfl
  · intro model label ev c ra mfs hev0 hnone hev1
    refine call_model_retry_then_success ?_ (by rw [hev1]; exact callStep_goodEv c)
    rw [hev0]
    simp [callStep, dictGet, hnone, stepRetries]
  · intro model label ev ra hev
    have h0 : stepRetries (callStep (ev 0)) = true := by rw [hev 0, hstep]; rfl
    have h1 : stepRetries (callStep (ev 1)) = true := by rw [hev 1, hstep]; rfl
    exact call_model_exhaust_fail h0 h1 (by rw [hev 2, hstep])

/-- Events for the C6 witness: a 200 whose single choice has no `content`. -/
def evNoContentThenGood : Nat → AttemptEv :=
  fun i => if i == 0 then
    .resp 200 none (.json (.obj [("choices", .arr [.obj [("message", .obj [])]])]))
  else goodEv "ok"

/-- Events for the C6 witness: every attempt returns a body without choices. -/
def evAllMalformed : Nat → AttemptEv := fun _ => .resp 200 none (.json (.obj []))

theorem C6_malformed_retried_witness :
    call_model "m" evMalformedThenGood "Lbl" = ((true, "ok"), 2) ∧
    call_model "m" evNoContentThenGood "Lbl" = ((true, "ok"), 2) ∧
    call_model "m" evAllMalformed "Lbl" =
      ((false, "Lbl: Invalid API response: missing or empty choices"), 3) := by
  have h1 := C6_malformed_retried.1 "m" "Lbl" evMalformedThenGood "ok" none rfl rfl
  have h2 := C6_malformed_retried.2.1 "m" "Lbl" evNoContentThenGood "ok" none []
    rfl rfl rfl
  have h3 := C6_malformed_retried.2.2 "m" "Lbl" evAllMalformed none (fun _ => rfl)
  exact ⟨by simpa using h1, by simpa using h2, by simpa using h3⟩

/-- Events refuting C7: a 404 client error, then a good response. -/
def evClientErrThenGood : Nat → AttemptEv :=
  fun i => if i == 0 then .resp 404 none (.json .null) else goodEv "ok"

/-- **C7 counterexample.** The claim says a client-error status (4xx other
than 429) causes immediate failure of the call without further retries; on
the code `raise_for_status` raises inside the `try`, the exception is caught,
and the shared retry block retries — here the second attempt succeeds, so the
call ends successfully after two attempts rather than failing immediately. -/
theorem C7_counterexample :
    call_model "m" evClientErrThenGood "Lbl" = ((true, "ok"), 2) := by rfl

/-- **C7 (amended).** A 429 or ≥ 500 status takes the explicit backoff-retry
path; every other non-2xx status (in particular any 4xx other than 429)
raises via `raise_for_status` inside the `try`, is caught like any transport
exception, and is retried the same way — a client-error status produces a
failure outcome only once the attempt budget is exhausted, not immediately. -/
theorem C7_client_error_retried :
    (∀ model label ev c s ra b, (s = 429 ∨ 500 ≤ s) → ev 0 = .resp s ra b →
      TransientEv (ev 0) → ev 1 = goodEv c →
      call_model model ev label = ((true, pyStrip c), 2)) ∧
    (∀ model label ev c s ra b, 400 ≤ s → s < 500 → s ≠ 429 →
      ev 0 = .resp s ra b → ev 1 = goodEv c →
      call_model model ev label = ((true, pyStrip c), 2)) ∧
    (∀ model label ev s ra b, 400 ≤ s → s < 500 → s ≠ 429 →
      (∀ i, ev i = .resp s ra b) →
      call_model model ev label = ((false,
        (if label == "" then model else label) ++ ": " ++ raiseForStatusMsg s), 3)) := by
  have hstep : ∀ s ra b, 400 ≤ s → s < 500 → s ≠ 429 →
      callStep (.resp s ra b) = .failRetryable (raiseForStatusMsg s) := by
    intro s ra b h4 h5 hne
    have hc : (s == 429 || decide (500 ≤ s)) = false := by
      simp [hne, Nat.not_le.mpr h5]
    have hr : (decide (s < 200) || decide (300 ≤ s)) = true := by
      have h300 : 300 ≤ s := by omega
      simp [h300]
    simp only [callStep, hc, Bool.false_eq_true, if_false, hr, if_true]
  refine ⟨?_, ?_, ?_⟩
  · intro model label ev c s ra b hs hev0 htr hev1
    exact call_model_retry_then_success (transient_stepRetries htr)
      (by rw [hev1]; exact callStep_goodEv c)
  · intro model label ev c s ra b h4 h5 hne hev0 hev1
    refine call_model_retry_then_success ?_ (by rw [hev1]; exact callStep_goodEv c)
    rw [hev0, hstep s ra b h4 h5 hne]; rfl
  · intro model label ev s ra b h4 h5 hne hev
    have hst := hstep s ra b h4 h5 hne
    have h0 : stepRetries (callStep (ev 0)) = true := by rw [hev 0, hst]; rfl
    have h1 : stepRetries (callStep (ev 1)) = true := by rw [hev 1, hst]; rfl
    exact call_model_exhaust_fail h0 h1 (by rw [hev 2, hst])

/-- Events for the C7 witness: a 404 on every attempt. -/
def evAllClientErr : Nat → AttemptEv := fun _ => .resp 404 none (.json .null)

theorem C7_client_error_retried_witness :
    call_model "m" evTransientGood "Lbl" = ((true, "fine"), 2) ∧
    call_model "m" evClientErrThenGood "Lbl" = ((true, "ok"), 2) ∧
    call_model "m" evAllClientErr "Lbl" =
      ((false, "Lbl: " ++ raiseForStatusMsg 404), 3) := by
  have h1 := C7_client_error_retried.1 "m" "Lbl" evTransientGood "fine" 503 none
    (.json .null) (Or.inr (by decide)) rfl
    (Or.inr ⟨503, none, .json .null, rfl, Or.inr (by decide)⟩) rfl
  have h2 := C7_client_error_retried.2.1 "m" "Lbl" evClientErrThenGood "ok" 404 none
    (.json .null) (by decide) (by decide) (by decide) rfl rfl
  have h3 := C7_client_error_retried.2.2 "m" "Lbl" evAllClientErr 404 none
    (.json .null) (by decide) (by decide) (by decide) (fun _ => rfl)
  exact ⟨by simpa using h1, by simpa using h2, by simpa using h3⟩

/-- **C9.** The transport caller is total at its interface: it always returns
a tagged `(success, text)` pair, every failure message starts with the
caller's tag (`label or model`), and the special inputs the claim singles out
— a non-numeric `Retry-After` header on a 429, and a 200 whose body is not
JSON — are caught like any transport exception and retried, never propagated. -/
theorem C9_total_interface :
    (∀ model label ev, (call_model model ev label).1.1 = false →
      ∃ rest, (call_model model ev label).1.2 =
        (if label == "" then model else label) ++ ": " ++ rest) ∧
    (∀ model label ev c s b, pyFloatAccepts s = false →
      ev 0 = .resp 429 (some s) b → ev 1 = goodEv c →
      call_model model ev label = ((true, pyStrip c), 2)) ∧
    (∀ model label ev c ra e, ev 0 = .resp 200 ra (.notJson e) → ev 1 = goodEv c →
      call_model model ev label = ((true, pyStrip c), 2)) := by
  refine ⟨?_, ?_, ?_⟩
  · intro model label ev hfail
    exact go_tagged_failure _ ev (MAX_RETRIES + 1) 0 hfail
  · intro model label ev c s b hfloat hev0 hev1
    refine call_model_retry_then_success ?_ (by rw [hev1]; exact callStep_goodEv c)
    rw [hev0]
    simp [callStep, hfloat, stepRetries]
  · intro model label ev c ra e hev0 hev1
    refine call_model_retry_then_success ?_ (by rw [hev1]; exact callStep_goodEv c)
    rw [hev0]
    simp [callStep, stepRetries]

/-- Events for the C9 witness: a 429 whose `Retry-After` is not numeric. -/
def evBadRetryAfter : Nat → AttemptEv :=
  fun i => if i == 0 then .resp 429 (some "soon") (.json .null) else goodEv "fine"

/-- Events for the C9 witness: a 200 whose body is not JSON. -/
def evNotJsonBody : Nat → AttemptEv :=
  fun i => if i == 0 then
    .resp 200 none (.notJson "Expecting value: line 1 column 1 (char 0)")
  else goodEv "fine"

theorem C9_total_interface_witness :
    pyFloatAccepts "soon" = false ∧
    call_model "m" evBadRetryAfter "Lbl" = ((true, "fine"), 2) ∧
    call_model "m" evNotJsonBody "Lbl" = ((true, "fine"), 2) ∧
    (∃ rest, (call_model "m" evAllDown "Lbl").1.2 = "Lbl" ++ ": " ++ rest) := by
  have h1 := C9_total_interface.2.1 "m" "Lbl" evBadRetryAfter "fine" "soon"
    (.json .null) (by rfl) rfl rfl
  have h2 := C9_total_interface.2.2 "m" "Lbl" evNotJsonBody "fine" none
    "Expecting value: line 1 column 1 (char 0)" rfl rfl
  have h3 := C9_total_interface.1 "m" "Lbl" evAllDown (by rfl)
  exact ⟨by rfl, by simpa using h1, by simpa using h2, by simpa using h3⟩

/-- **C2.** For every reviewer and surviving-answer list, the anonymized
bundle (a) contains no section whose answer comes from the reviewer's own
record — exclusion is by councilor `id` —, (b) carries every other surviving
answer exactly once (the section answers are a permutation of the other
answers), and (c) labels the sections `Model A`, `Model B`, … sequentially in
the permuted order; the labels are a function of the count alone and carry no
real councilor label. -/
theorem C2_anonymization (answers : List AnswerRec) (exclude_id : String)
    (shuffle : List AnswerRec → List AnswerRec)
    (hperm : List.Perm (shuffle (answers.filter fun a => a.id != exclude_id))
      (answers.filter fun a => a.id != exclude_id)) :
    (∀ p ∈ anonymizeSections answers exclude_id shuffle,
      ∃ a, a ∈ answers ∧ a.id ≠ exclude_id ∧ p.2 = a.answer) ∧
    (List.Perm ((anonymizeSections answers exclude_id shuffle).map Prod.snd)
      ((answers.filter fun a => a.id != exclude_id).map (fun a => a.answer))) ∧
    ((anonymizeSections answers exclude_id shuffle).map Prod.fst =
      (List.range (anonymizeSections answers exclude_id shuffle).length).map
        modelLabel) := by
  have hlen : ((List.range (shuffle (answers.filter fun a =>
      a.id != exclude_id)).length).map modelLabel).length =
      (shuffle (answers.filter fun a => a.id != exclude_id)).length := by simp
  have hsecs : anonymizeSections answers exclude_id shuffle =
      (((List.range (shuffle (answers.filter fun a => a.id != exclude_id)).length).map
        modelLabel).zip (shuffle (answers.filter fun a => a.id != exclude_id))).map
        (fun p => (p.1, p.2.answer)) := rfl
  have hsnd : (anonymizeSections answers exclude_id shuffle).map Prod.snd =
      (shuffle (answers.filter fun a => a.id != exclude_id)).map
        (fun a => a.answer) := by
    rw [hsecs, List.map_map]
    have hfun : (Prod.snd ∘ fun p : String × AnswerRec => (p.1, p.2.answer)) =
        (fun a : AnswerRec => a.answer) ∘ Prod.snd := rfl
    rw [hfun, ← List.map_map]
    rw [List.map_snd_zip _ _ (le_of_eq hlen.symm)]
  have hpermsnd : List.Perm ((anonymizeSections answers exclude_id shuffle).map Prod.snd)
      ((answers.filter fun a => a.id != exclude_id).map (fun a => a.answer)) := by
    rw [hsnd]
    exact hperm.map _
  refine ⟨?_, hpermsnd, ?_⟩
  · intro p hp
    have hmem : p.2 ∈ (anonymizeSections answers exclude_id shuffle).map Prod.snd :=
      List.mem_map.mpr ⟨p, hp, rfl⟩
    have hmem2 : p.2 ∈ (answers.filter fun a => a.id != exclude_id).map
        (fun a => a.answer) := hpermsnd.mem_iff.mp hmem
    obtain ⟨a, ha, hans⟩ := List.mem_map.mp hmem2
    obtain ⟨hmem3, hid⟩ := List.mem_filter.mp ha
    exact ⟨a, hmem3, by simpa using hid, hans.symm⟩
  · have hfst : (anonymizeSections answers exclude_id shuffle).map Prod.fst =
        (List.range (shuffle (answers.filter fun a => a.id != exclude_id)).length).map
          modelLabel := by
      rw [hsecs, List.map_map]
      have hfun : (Prod.fst ∘ fun p : String × AnswerRec => (p.1, p.2.answer)) =
          (Prod.fst : String × AnswerRec → String) := rfl
      rw [hfun, List.map_fst_zip _ _ (le_of_eq hlen)]
    have hcount : (anonymizeSections answers exclude_id shuffle).length =
        (shuffle (answers.filter fun a => a.id != exclude_id)).length := by
      rw [hsecs]
      simp
    rw [hfst, hcount]

/-- Concrete roster for the C2 witness. -/
def wAnswers : List AnswerRec :=
  [⟨"i1", "m1", "L1", "r1", "ans one"⟩,
   ⟨"i2", "m2", "L2", "r2", "ans two"⟩,
   ⟨"i3", "m3", "L3", "r3", "ans three"⟩]

theorem C2_anonymization_witness :
    (List.Perm (List.reverse (wAnswers.filter fun a => a.id != "i2"))
      (wAnswers.filter fun a => a.id != "i2")) ∧
    (List.Perm ((anonymizeSections wAnswers "i2" List.reverse).map Prod.snd)
      ((wAnswers.filter fun a => a.id != "i2").map (fun a => a.answer))) ∧
    ((anonymizeSections wAnswers "i2" List.reverse).map Prod.fst =
      (List.range (anonymizeSections wAnswers "i2" List.reverse).length).map
        modelLabel) := by
  have h := C2_anonymization wAnswers "i2" List.reverse (List.reverse_perm _)
  exact ⟨List.reverse_perm _, h.2.1, h.2.2⟩

/-- `sub` occurs as a contiguous substring of `s`. -/
def strContains (sub s : String) : Prop :=
  List.IsInfix sub.toList s.toList

theorem strToList_append (a b : String) : (a ++ b).toList = a.toList ++ b.toList := by
  cases a; cases b; rfl

theorem strContains_append_middle (a x b : String) :
    strContains x (a ++ x ++ b) := by
  unfold strContains
  rw [String.append_assoc, strToList_append, strToList_append]
  exact List.infix_append' _ _ _

theorem strContains_trans {a b c : String} (h1 : strContains a b)
    (h2 : strContains b c) : strContains a c :=
  List.IsInfix.trans h1 h2

theorem strContains_of_append_right {x b : String} (a : String)
    (h : strContains x b) : strContains x (a ++ b) := by
  obtain ⟨u, v, huv⟩ := h
  exact ⟨a.toList ++ u, v, by rw [strToList_append, ← huv]; simp [List.append_assoc]⟩

theorem strContains_of_append_left {x a : String} (b : String)
    (h : strContains x a) : strContains x (a ++ b) := by
  obtain ⟨u, v, huv⟩ := h
  exact ⟨u, v ++ b.toList, by rw [strToList_append, ← huv]; simp [List.append_assoc]⟩

theorem strContains_refl (x : String) : strContains x x :=
  ⟨[], [], by simp⟩

theorem mem_joinComma_contains {p : String} :
    ∀ {parts : List String}, p ∈ parts → strContains p (joinComma parts) := by
  intro parts
  induction parts with
  | nil => intro h; cases h
  | cons x xs ih =>
    intro hmem
    rcases List.mem_cons.mp hmem with rfl | htail
    · cases xs with
      | nil => exact strContains_refl p
      | cons y ys =>
        show strContains p (p ++ ", " ++ joinComma (y :: ys))
        exact strContains_of_append_left _ (strContains_of_append_left _
          (strContains_refl p))
    · cases xs with
      | nil => cases htail
      | cons y ys =>
        show strContains p (x ++ ", " ++ joinComma (y :: ys))
        rw [String.append_assoc]
        exact strContains_of_append_right _ (strContains_of_append_right _
          (ih htail))

theorem err_in_quorumMessage {e : ErrRec} {errs : List ErrRec} (h : e ∈ errs)
    (n : Nat) :
    strContains (pyReprStr e.error) (quorumMessage n errs) := by
  have h1 : strContains (pyReprErr e) (joinComma (errs.map pyReprErr)) :=
    mem_joinComma_contains (List.mem_map_of_mem pyReprErr h)
  have h2 : strContains (pyReprStr e.error) (pyReprErr e) := by
    show strContains (pyReprStr e.error)
      ("\x7b'model': " ++ pyReprStr e.model ++ ", 'error': " ++ pyReprStr e.error ++ "\x7d")
    exact strContains_append_middle _ _ _
  refine strContains_trans (strContains_trans h2 h1) ?_
  show strContains _ ("Only " ++ toString n ++ " councilor(s) succeeded — minimum " ++
    toString MIN_QUORUM ++ " required. Errors: " ++ ("[" ++ joinComma (errs.map pyReprErr) ++ "]"))
  refine strContains_of_append_right _ ?_
  exact strContains_append_middle _ _ _

/-- The report produced by a successful run, as an explicit record. -/
def runReportOf (question : String) (results : List (Bool × String))
    (res2 : AnswerRec → Bool × String) (fast : Bool)
    (syn : List (String × JVal)) : RunReport :=
  { question := question
    executive_summary := dictGet "executive_summary" syn
    deliverables := dictGet "deliverables" syn
    success_criteria := dictGet "success_criteria" syn
    phases := dictGet "phases" syn
    risks := dictGet "risks" syn
    moats := dictGet "moats" syn
    strategic_priorities := dictGet "strategic_priorities" syn
    resource_considerations := dictGet "resource_considerations" syn
    go_no_go_criteria := dictGet "go_no_go_criteria" syn
    disagreements := dictGet "disagreements" syn
    confidence := dictGet "confidence" syn
    confidence_note := dictGet "confidence_note" syn
    individual_answers := (partitionResults (COUNCILORS.zip results)).1.map
      (fun a => (a.label, a.answer))
    peer_reviews := (if fast then [] else
      (stage2_reviews (partitionResults (COUNCILORS.zip results)).1 res2).1).map
      (fun rr => (rr.label, rr.review))
    chairman := CHAIRMAN_label
    council := COUNCILORS.map (fun c => c.label)
    stage2_skipped := fast
    errors := (partitionResults (COUNCILORS.zip results)).2 ++
      (if fast then [] else
        (stage2_reviews (partitionResults (COUNCILORS.zip results)).1 res2).2) }

theorem stage1_ok (results : List (Bool × String))
    (hok : ¬ (partitionResults (COUNCILORS.zip results)).1.length < MIN_QUORUM) :
    stage1_first_opinions results =
      .ok ((partitionResults (COUNCILORS.zip results)).1,
        (partitionResults (COUNCILORS.zip results)).2) := by
  rcases hpe : partitionResults (COUNCILORS.zip results) with ⟨s, e⟩
  rw [hpe] at hok
  simp only at hok
  simp [stage1_first_opinions, hpe, hok]

theorem stage1_below_quorum (results : List (Bool × String))
    (hlt : (partitionResults (COUNCILORS.zip results)).1.length < MIN_QUORUM) :
    stage1_first_opinions results = .error
      (quorumMessage (partitionResults (COUNCILORS.zip results)).1.length
        (partitionResults (COUNCILORS.zip results)).2) := by
  rcases hpe : partitionResults (COUNCILORS.zip results) with ⟨s, e⟩
  rw [hpe] at hlt
  simp only at hlt
  simp [stage1_first_opinions, hpe, hlt]

theorem run_council_eq_ok {question : String} {results : List (Bool × String)}
    {res2 : AnswerRec → Bool × String} {chair : Bool × String} {fast : Bool}
    (hok : ¬ (partitionResults (COUNCILORS.zip results)).1.length < MIN_QUORUM)
    {syn : List (String × JVal)} (h3 : stage3_chairman chair = .ok syn) :
    run_council question results res2 chair fast =
      .ok (runReportOf question results res2 fast syn) := by
  have hs1 := stage1_ok results hok
  cases fast with
  | false =>
    rcases hst : stage2_reviews (partitionResults (COUNCILORS.zip results)).1 res2
      with ⟨rs, es⟩
    simp [run_council, hs1, h3, runReportOf, hst]
  | true =>
    simp [run_council, hs1, h3, runReportOf]

theorem run_council_eq_error {question : String} {results : List (Bool × String)}
    {res2 : AnswerRec → Bool × String} {chair : Bool × String} {fast : Bool}
    (hlt : (partitionResults (COUNCILORS.zip results)).1.length < MIN_QUORUM) :
    run_council question results res2 chair fast = .error
      (quorumMessage (partitionResults (COUNCILORS.zip results)).1.length
        (partitionResults (COUNCILORS.zip results)).2) := by
  have hs1 := stage1_below_quorum results hlt
  simp [run_council, hs1]

theorem run_council_ok_inv {question : String} {results : List (Bool × String)}
    {res2 : AnswerRec → Bool × String} {chair : Bool × String} {fast : Bool}
    {r : RunReport}
    (hrun : run_council question results res2 chair fast = .ok r) :
    ¬ (partitionResults (COUNCILORS.zip results)).1.length < MIN_QUORUM ∧
    ∃ syn, stage3_chairman chair = .ok syn ∧
      r = runReportOf question results res2 fast syn := by
  by_cases hq : (partitionResults (COUNCILORS.zip results)).1.length < MIN_QUORUM
  · rw [run_council_eq_error hq] at hrun
    cases hrun
  · refine ⟨hq, ?_⟩
    cases h3 : stage3_chairman chair with
    | error msg =>
      have hs1 := stage1_ok results hq
      cases fast with
      | false =>
        rcases hst : stage2_reviews (partitionResults (COUNCILORS.zip results)).1 res2
          with ⟨rs, es⟩
        simp [run_council, hs1, h3, hst] at hrun
      | true => simp [run_council, hs1, h3] at hrun
    | ok syn =>
      rw [run_council_eq_ok hq h3] at hrun
      cases hrun
      exact ⟨syn, rfl, rfl⟩

/-- **C1.** Stage 1 quorum gate: with fewer than `MIN_QUORUM` successes the
stage raises a fatal error whose message carries the success count and every
collected failure reason, and the whole run returns that same error for
*every* Stage 2 / Stage 3 input (no Stage 2/3 work can influence it); with at
least `MIN_QUORUM` successes the stage returns exactly the successful subset
plus the failure list, and any report produced by the run lists exactly that
subset as its individual answers. -/
theorem C1_quorum_gate :
    (∀ results, (partitionResults (COUNCILORS.zip results)).1.length < MIN_QUORUM →
      stage1_first_opinions results = .error
        (quorumMessage (partitionResults (COUNCILORS.zip results)).1.length
          (partitionResults (COUNCILORS.zip results)).2) ∧
      (∀ question res2 chair fast,
        run_council question results res2 chair fast = .error
          (quorumMessage (partitionResults (COUNCILORS.zip results)).1.length
            (partitionResults (COUNCILORS.zip results)).2))) ∧
    (∀ results, MIN_QUORUM ≤ (partitionResults (COUNCILORS.zip results)).1.length →
      stage1_first_opinions results =
        .ok ((partitionResults (COUNCILORS.zip results)).1,
          (partitionResults (COUNCILORS.zip results)).2) ∧
      (∀ question res2 chair fast r,
        run_council question results res2 chair fast = .ok r →
        r.individual_answers = (partitionResults (COUNCILORS.zip results)).1.map
          (fun a => (a.label, a.answer)))) ∧
    (∀ n errs, strContains (toString n) (quorumMessage n errs) ∧
      ∀ e ∈ errs, strContains (pyReprStr e.error) (quorumMessage n errs)) := by
  refine ⟨?_, ?_, ?_⟩
  · intro results hlt
    exact ⟨stage1_below_quorum results hlt,
      fun question res2 chair fast => run_council_eq_error hlt⟩
  · intro results hge
    have hok := Nat.not_lt.mpr hge
    refine ⟨stage1_ok results hok, ?_⟩
    intro question res2 chair fast r hrun
    obtain ⟨-, syn, -, rfl⟩ := run_council_ok_inv hrun
    rfl
  · intro n errs
    constructor
    · show strContains (toString n)
        ("Only " ++ toString n ++ " councilor(s) succeeded — minimum " ++
          toString MIN_QUORUM ++ " required. Errors: " ++ pyReprErrList errs)
      exact strContains_of_append_left _ (strContains_of_append_left _
        (strContains_of_append_left _ (strContains_of_append_left _
          (strContains_of_append_right _ (strContains_refl _)))))
    · intro e he
      exact err_in_quorumMessage he n

/-- Stage 1 outcomes for the C1 witness: one success out of four. -/
def wResLow : List (Bool × String) :=
  [(true, "plan A"), (false, "boom"), (false, "kaput"), (false, "down")]

/-- Stage 1 outcomes for the C1 witness: three successes out of four. -/
def wResOk : List (Bool × String) :=
  [(true, "plan A"), (false, "boom"), (true, "plan C"), (true, "plan D")]

theorem C1_quorum_gate_witness :
    (partitionResults (COUNCILORS.zip wResLow)).1.length < MIN_QUORUM ∧
    run_council "q" wResLow (fun _ => (true, "rev")) (true, "null") false =
      .error (quorumMessage (partitionResults (COUNCILORS.zip wResLow)).1.length
        (partitionResults (COUNCILORS.zip wResLow)).2) ∧
    MIN_QUORUM ≤ (partitionResults (COUNCILORS.zip wResOk)).1.length ∧
    stage1_first_opinions wResOk =
      .ok ((partitionResults (COUNCILORS.zip wResOk)).1,
        (partitionResults (COUNCILORS.zip wResOk)).2) ∧
    strContains (pyReprStr "boom")
      (quorumMessage 1 (partitionResults (COUNCILORS.zip wResLow)).2) := by
  have hlt : (partitionResults (COUNCILORS.zip wResLow)).1.length < MIN_QUORUM := by
    decide
  have hge : MIN_QUORUM ≤ (partitionResults (COUNCILORS.zip wResOk)).1.length := by
    decide
  refine ⟨hlt, (C1_quorum_gate.1 wResLow hlt).2 "q" _ _ false,
    hge, (C1_quorum_gate.2.1 wResOk hge).1, ?_⟩
  have := (C1_quorum_gate.2.2 1 (partitionResults (COUNCILORS.zip wResLow)).2).2
    ⟨"Hermes 3 405B", "boom"⟩ (by decide)
  simpa using this

theorem partition_err_mem {c : Councilor} {msg : String} :
    ∀ {l : List (Councilor × (Bool × String))}, (c, (false, msg)) ∈ l →
      (⟨c.label, msg⟩ : ErrRec) ∈ (partitionResults l).2 := by
  intro l
  induction l with
  | nil => intro h; cases h
  | cons hd tl ih =>
    intro h
    obtain ⟨chd, okhd, conthd⟩ := hd
    rcases List.mem_cons.mp h with heq | htail
    · cases heq
      simp [partitionResults]
    · cases okhd with
      | false =>
        have hmem := ih htail
        simp only [partitionResults]
        rcases hpe : partitionResults tl with ⟨s, e⟩
        rw [hpe] at hmem
        simpa using Or.inr hmem
      | true =>
        have hmem := ih htail
        simp only [partitionResults]
        rcases hpe : partitionResults tl with ⟨s, e⟩
        rw [hpe] at hmem
        simpa using hmem

theorem partition_succ_mem {a : AnswerRec} :
    ∀ {l : List (Councilor × (Bool × String))}, a ∈ (partitionResults l).1 →
      ∃ c : Councilor, (c, (true, a.answer)) ∈ l ∧ c.label = a.label := by
  intro l
  induction l with
  | nil => intro h; simp [partitionResults] at h
  | cons hd tl ih =>
    intro h
    obtain ⟨chd, okhd, conthd⟩ := hd
    cases okhd with
    | false =>
      simp only [partitionResults] at h
      rcases hpe : partitionResults tl with ⟨s, e⟩
      rw [hpe] at h
      simp at h
      obtain ⟨c, hc, hlab⟩ := ih (by rw [hpe]; exact h)
      exact ⟨c, List.mem_cons_of_mem _ hc, hlab⟩
    | true =>
      simp only [partitionResults] at h
      rcases hpe : partitionResults tl with ⟨s, e⟩
      rw [hpe] at h
      simp at h
      rcases h with heq | htail
      · subst heq
        exact ⟨chd, List.mem_cons_self _ _, rfl⟩
      · obtain ⟨c, hc, hlab⟩ := ih (by rw [hpe]; exact htail)
        exact ⟨c, List.mem_cons_of_mem _ hc, hlab⟩

theorem partitionReviews_mem {rr : ReviewRec} :
    ∀ {l : List (AnswerRec × (Bool × String))}, rr ∈ (partitionReviews l).1 →
      ∃ a r, (a, r) ∈ l ∧ rr.label = a.label := by
  intro l
  induction l with
  | nil => intro h; simp [partitionReviews] at h
  | cons hd tl ih =>
    intro h
    obtain ⟨ahd, okhd, conthd⟩ := hd
    cases okhd with
    | false =>
      simp only [partitionReviews] at h
      rcases hpe : partitionReviews tl with ⟨s, e⟩
      rw [hpe] at h
      simp at h
      obtain ⟨a, r, hr, hlab⟩ := ih (by rw [hpe]; exact h)
      exact ⟨a, r, List.mem_cons_of_mem _ hr, hlab⟩
    | true =>
      simp only [partitionReviews] at h
      rcases hpe : partitionReviews tl with ⟨s, e⟩
      rw [hpe] at h
      simp at h
      rcases h with heq | htail
      · subst heq
        exact ⟨ahd, (true, conthd), List.mem_cons_self _ _, rfl⟩
      · obtain ⟨a, r, hr, hlab⟩ := ih (by rw [hpe]; exact htail)
        exact ⟨a, r, List.mem_cons_of_mem _ hr, hlab⟩

theorem zip_label_unique {r1 r2 : Bool × String} {c c2 : Councilor} :
    ∀ {l1 : List Councilor} {l2 : List (Bool × String)},
      (l1.map (fun c => c.label)).Nodup →
      (c, r1) ∈ l1.zip l2 → (c2, r2) ∈ l1.zip l2 → c2.label = c.label →
      c2 = c ∧ r2 = r1 := by
  intro l1
  induction l1 with
  | nil => intro l2 _ h; cases h
  | cons x xs ih =>
    intro l2 hnd h1 h2 hlab
    cases l2 with
    | nil => cases h1
    | cons y ys =>
      have hnd2 : (x.label :: xs.map (fun c => c.label)).Nodup := by
        rw [List.map_cons] at hnd; exact hnd
      obtain ⟨hxnot, hndtail⟩ := List.nodup_cons.mp hnd2
      simp only [List.zip_cons_cons] at h1 h2
      rcases List.mem_cons.mp h1 with he1 | ht1 <;>
        rcases List.mem_cons.mp h2 with he2 | ht2
      · obtain ⟨hc1, hr1⟩ := Prod.mk.injEq .. ▸ he1
        obtain ⟨hc2, hr2⟩ := Prod.mk.injEq .. ▸ he2
        exact ⟨by rw [hc2, hc1], by rw [hr2, hr1]⟩
      · obtain ⟨hc1, hr1⟩ := Prod.mk.injEq .. ▸ he1
        exfalso
        have hc2mem : c2 ∈ xs := (List.of_mem_zip ht2).1
        have hthis : c2.label ∈ xs.map (fun c => c.label) :=
          List.mem_map_of_mem _ hc2mem
        rw [hlab, hc1] at hthis
        exact hxnot hthis
      · obtain ⟨hc2, hr2⟩ := Prod.mk.injEq .. ▸ he2
        exfalso
        have hcmem : c ∈ xs := (List.of_mem_zip ht1).1
        have hthis : c.label ∈ xs.map (fun c => c.label) :=
          List.mem_map_of_mem _ hcmem
        rw [← hlab, hc2] at hthis
        exact hxnot hthis
      · exact ih hndtail ht1 ht2 hlab

/-- The roster's display labels are pairwise distinct. -/
theorem councilors_labels_nodup : (COUNCILORS.map (fun c => c.label)).Nodup := by
  decide

/-- **C10.** In every report produced by a run, the `council` field lists the
labels of the full static roster; `individual_answers` lists exactly the
Stage 1 successes; and a councilor that failed in Stage 1 appears in
`council` and contributes its error record to `errors`, but its label never
appears in `individual_answers` or `peer_reviews`. -/
theorem C10_report_roster :
    ∀ question results res2 chair fast r,
      run_council question results res2 chair fast = .ok r →
      r.council = COUNCILORS.map (fun c => c.label) ∧
      r.individual_answers = (partitionResults (COUNCILORS.zip results)).1.map
        (fun a => (a.label, a.answer)) ∧
      ∀ c msg, (c, (false, msg)) ∈ COUNCILORS.zip results →
        c.label ∈ r.council ∧ (⟨c.label, msg⟩ : ErrRec) ∈ r.errors ∧
        (∀ p ∈ r.individual_answers, p.1 ≠ c.label) ∧
        (∀ p ∈ r.peer_reviews, p.1 ≠ c.label) := by
  intro question results res2 chair fast r hrun
  obtain ⟨-, syn, -, rfl⟩ := run_council_ok_inv hrun
  refine ⟨rfl, rfl, ?_⟩
  intro c msg hmem
  have hcron : c ∈ COUNCILORS := (List.of_mem_zip hmem).1
  have hanslab : ∀ a ∈ (partitionResults (COUNCILORS.zip results)).1,
      a.label ≠ c.label := by
    intro a ha heq
    obtain ⟨c2, hc2, hlab2⟩ := partition_succ_mem ha
    obtain ⟨-, hr⟩ := zip_label_unique councilors_labels_nodup hmem hc2
      (by rw [hlab2, heq])
    cases hr
  refine ⟨List.mem_map_of_mem _ hcron, ?_, ?_, ?_⟩
  · show (⟨c.label, msg⟩ : ErrRec) ∈
      (partitionResults (COUNCILORS.zip results)).2 ++ _
    exact List.mem_append_left _ (partition_err_mem hmem)
  · intro p hp
    obtain ⟨a, ha, rfl⟩ := List.mem_map.mp hp
    exact hanslab a ha
  · intro p hp
    rcases List.mem_map.mp hp with ⟨rr, hrr, rfl⟩
    by_cases hfast : fast
    · rw [hfast] at hrr
      simp at hrr
    · rw [if_neg hfast] at hrr
      obtain ⟨a, rev, harev, hlab⟩ := partitionReviews_mem hrr
      rcases List.mem_map.mp harev with ⟨a2, ha2, heq2⟩
      have ha1 : a2 = a := by
        injection heq2 with h1 h2
      subst ha1
      intro heq
      exact hanslab a2 ha2 (by rw [← hlab]; exact heq)

theorem C10_report_roster_witness :
    ∃ r, run_council "q" wResOk (fun _ => (true, "rev")) (true, "null") false = .ok r ∧
      r.council = COUNCILORS.map (fun c => c.label) ∧
      (⟨"Hermes 3 405B", "boom"⟩ : ErrRec) ∈ r.errors ∧
      (∀ p ∈ r.individual_answers, p.1 ≠ "Hermes 3 405B") ∧
      (∀ p ∈ r.peer_reviews, p.1 ≠ "Hermes 3 405B") := by
  have h3 : stage3_chairman (true, "null") =
      .ok (SCHEMA.foldl schemaStep (parseFailRecord "null")) := rfl
  have hok : ¬ (partitionResults (COUNCILORS.zip wResOk)).1.length < MIN_QUORUM := by
    decide
  have hrun := @run_council_eq_ok "q" wResOk (fun _ => (true, "rev")) (true, "null")
    false hok (SCHEMA.foldl schemaStep (parseFailRecord "null")) h3
  have h := C10_report_roster "q" wResOk (fun _ => (true, "rev")) (true, "null")
    false _ hrun
  have hfail := h.2.2
    ⟨"hermes-405b", "nousresearch/hermes-3-llama-3.1-405b:free", "Hermes 3 405B",
      "Knowledge"⟩ "boom" (by decide)
  exact ⟨_, hrun, h.1, hfail.2.1, hfail.2.2.1, hfail.2.2.2⟩

/-- **C8.** If the chairman's transport call fails, Stage 3 returns the fixed
failure record immediately (narrative explains the failure, every structured
list empty, confidence `unknown`), and — whenever Stage 1 passed quorum — the
run still completes with a valid report carrying exactly those fields. -/
theorem C8_chair_failure_degrades :
    (∀ raw, stage3_chairman (false, raw) = .ok (chairFailRecord raw)) ∧
    (∀ question results res2 raw fast,
      ¬ (partitionResults (COUNCILORS.zip results)).1.length < MIN_QUORUM →
      ∃ r, run_council question results res2 (false, raw) fast = .ok r ∧
        r.executive_summary = .str ("Chairman failed to respond: " ++ raw) ∧
        r.deliverables = .arr [] ∧ r.success_criteria = .arr [] ∧
        r.phases = .arr [] ∧ r.risks = .arr [] ∧ r.moats = .arr [] ∧
        r.strategic_priorities = .arr [] ∧ r.go_no_go_criteria = .arr [] ∧
        r.disagreements = .arr [] ∧ r.resource_considerations = .str "" ∧
        r.confidence = .str "unknown" ∧
        r.confidence_note = .str "Chairman call failed." ∧
        r.council = COUNCILORS.map (fun c => c.label)) := by
  refine ⟨fun raw => rfl, ?_⟩
  intro question results res2 raw fast hok
  have h3 : stage3_chairman (false, raw) = .ok (chairFailRecord raw) := rfl
  have hrun := @run_council_eq_ok question results res2 (false, raw) fast hok
    (chairFailRecord raw) h3
  exact ⟨_, hrun, rfl, rfl, rfl, rfl, rfl, rfl, rfl, rfl, rfl, rfl, rfl, rfl, rfl⟩

theorem C8_chair_failure_degrades_witness :
    stage3_chairman (false, "HTTP 503") = .ok (chairFailRecord "HTTP 503") ∧
    ∃ r, run_council "q" wResOk (fun _ => (true, "rev")) (false, "HTTP 503") false =
        .ok r ∧
      r.executive_summary = .str ("Chairman failed to respond: " ++ "HTTP 503") ∧
      r.confidence = .str "unknown" := by
  have h := C8_chair_failure_degrades.2 "q" wResOk (fun _ => (true, "rev"))
    "HTTP 503" false (by decide)
  obtain ⟨r, hrun, hsum, -, -, -, -, -, -, -, -, -, hconf, -, -⟩ := h
  exact ⟨C8_chair_failure_degrades.1 "HTTP 503", r, hrun, hsum, hconf⟩

/-- **C3.** The layered parser applies its strategies in order with
first-success semantics: a reply whose stripped text is valid JSON is decided
by the direct parse (returning exactly its value — a `null` document yields
Python `None`, just as in the source); when that fails, a fenced block (with
or without a `json` tag) is extracted and parsed; when that fails too, the
greedy outermost-brace span is parsed; and when every strategy fails the
parser returns `None` and Stage 3 builds the degraded record — narrative =
the raw reply verbatim, all structured lists empty, confidence `unknown`.
The parser is a total function: no input raises. -/
theorem C3_layered_extraction :
    (∀ raw v, jsonLoads (pyStrip raw) = some v → parse_chairman_json raw = v) ∧
    (∀ raw g v, jsonLoads (pyStrip raw) = none → fenceSearch raw.toList = some g →
      jsonLoads (pyStrip g) = some v → parse_chairman_json raw = v) ∧
    (∀ raw b v, jsonLoads (pyStrip raw) = none → strat2 raw = none →
      braceExtract raw = some b → jsonLoads b = some v →
      parse_chairman_json raw = v) ∧
    (∀ raw, jsonLoads (pyStrip raw) = none → strat2 raw = none →
      strat3 raw = none →
      parse_chairman_json raw = .null ∧
      stage3_chairman (true, raw) = .ok (parseFailRecord raw)) := by
  have hfold : ∀ raw, SCHEMA.foldl schemaStep (parseFailRecord raw) =
      parseFailRecord raw := by
    intro raw
    simp [SCHEMA, parseFailRecord, List.foldl_cons, List.foldl_nil,
      schemaStep, dictGet, List.lookup]
  refine ⟨?_, ?_, ?_, ?_⟩
  · intro raw v h
    simp [parse_chairman_json, strat1, h]
  · intro raw g v h1 hf hv
    simp only [String.toList] at hf
    simp [parse_chairman_json, strat1, strat2, h1, hf, hv]
  · intro raw b v h1 h2 hb hv
    simp [parse_chairman_json, strat1, strat3, h1, h2, hb, hv]
  · intro raw h1 h2 h3
    have hp : parse_chairman_json raw = .null := by
      simp [parse_chairman_json, strat1, h1, h2, h3]
    refine ⟨hp, ?_⟩
    show (let synthesis := parse_chairman_json raw
      validateSchema (match synthesis with
        | .null => JVal.obj (parseFailRecord raw)
        | v => v)) = .ok (parseFailRecord raw)
    rw [hp]
    show validateSchema (JVal.obj (parseFailRecord raw)) = .ok (parseFailRecord raw)
    rw [validateSchema, hfold]

/-- A clean-JSON chairman reply. -/
def rawClean : String := "\x7b\"confidence\": \"high\"\x7d"

/-- A fenced chairman reply (with language tag). -/
def rawFenced : String := "```json\n\x7b\"confidence\": \"high\"\x7d\n```"

/-- A chairman reply with leading prose and a trailing JSON object. -/
def rawPre : String := "Here is my synthesis:\n\n\x7b\"confidence\": \"high\"\x7d"

/-- A pure-prose chairman reply. -/
def rawProse : String := "This is not JSON at all, just a rambling answer."

/-- The parsed value shared by the C3 witness inputs. -/
def wVal : JVal := .obj [("confidence", .str "high")]

theorem C3_layered_extraction_witness :
    parse_chairman_json rawClean = wVal ∧
    parse_chairman_json rawFenced = wVal ∧
    parse_chairman_json rawPre = wVal ∧
    parse_chairman_json rawProse = .null ∧
    stage3_chairman (true, rawProse) = .ok (parseFailRecord rawProse) := by
  have h1 := C3_layered_extraction.1 rawClean wVal (by rfl)
  have h2 := C3_layered_extraction.2.1 rawFenced "\n\x7b\"confidence\": \"high\"\x7d\n"
    wVal (by rfl) (by rfl) (by rfl)
  have h3 := C3_layered_extraction.2.2.1 rawPre "\x7b\"confidence\": \"high\"\x7d" wVal
    (by rfl) (by rfl) (by rfl) (by rfl)
  have h4 := C3_layered_extraction.2.2.2 rawProse (by rfl) (by rfl) (by rfl)
  exact ⟨h1, h2, h3, h4.1, h4.2⟩

theorem lookup_dictSet_self (k : String) (v : JVal) :
    ∀ d : List (String × JVal), (dictSet k v d).lookup k = some v := by
  intro d
  induction d with
  | nil => simp [dictSet]
  | cons hd tl ih =>
    obtain ⟨k2, v2⟩ := hd
    by_cases h : k2 = k
    · subst h
      simp [dictSet]
    · simp only [dictSet, beq_iff_eq, h, if_false]
      rw [List.lookup_cons]
      simp [beq_false_of_ne (Ne.symm h), ih]

theorem lookup_dictSet_other {k k' : String} (v : JVal) (h : k' ≠ k) :
    ∀ d : List (String × JVal), (dictSet k v d).lookup k' = d.lookup k' := by
  intro d
  induction d with
  | nil => simp [dictSet, List.lookup_cons, beq_false_of_ne h]
  | cons hd tl ih =>
    obtain ⟨k2, v2⟩ := hd
    by_cases h2 : k2 = k
    · subst h2
      simp [dictSet, List.lookup_cons, beq_false_of_ne h]
    · simp only [dictSet, beq_iff_eq, h2, if_false]
      rw [List.lookup_cons, List.lookup_cons]
      cases hbe : k' == k2 <;> simp [ih]

theorem schemaStep_lookup_other {key key' : String} {kind : FieldKind}
    (d : List (String × JVal)) (h : key' ≠ key) :
    (schemaStep d (key, kind)).lookup key' = d.lookup key' := by
  cases kind with
  | fstr dflt =>
    simp only [schemaStep]
    cases dictGet key d <;>
      simp [lookup_dictSet_other _ h]
  | flist =>
    simp only [schemaStep]
    cases dictGet key d <;>
      simp [lookup_dictSet_other _ h]

theorem schemaStep_lookup_self {key : String} {kind : FieldKind}
    (d : List (String × JVal)) :
    (schemaStep d (key, kind)).lookup key = some (coerceVal kind (dictGet key d)) := by
  cases kind with
  | fstr dflt =>
    simp only [schemaStep]
    cases hv : dictGet key d with
    | str s =>
      have : d.lookup key = some (.str s) := by
        unfold dictGet at hv
        cases hl : d.lookup key with
        | none => rw [hl] at hv; cases hv
        | some w => rw [hl] at hv; simp at hv; rw [hv]
      simp [coerceVal, this]
    | null => simp [coerceVal, lookup_dictSet_self]
    | bool b => simp [coerceVal, lookup_dictSet_self]
    | num lex => simp [coerceVal, lookup_dictSet_self]
    | arr l => simp [coerceVal, lookup_dictSet_self]
    | obj fs => simp [coerceVal, lookup_dictSet_self]
  | flist =>
    simp only [schemaStep]
    cases hv : dictGet key d with
    | arr l =>
      have : d.lookup key = some (.arr l) := by
        unfold dictGet at hv
        cases hl : d.lookup key with
        | none => rw [hl] at hv; cases hv
        | some w => rw [hl] at hv; simp at hv; rw [hv]
      simp [coerceVal, this]
    | null => simp [coerceVal, lookup_dictSet_self]
    | bool b => simp [coerceVal, lookup_dictSet_self]
    | num lex => simp [coerceVal, lookup_dictSet_self]
    | str s => simp [coerceVal, lookup_dictSet_self]
    | obj fs => simp [coerceVal, lookup_dictSet_self]

theorem schemaLoop_lookup_notin {key : String} :
    ∀ (schema : List (String × FieldKind)) (d : List (String × JVal)),
      key ∉ schema.map Prod.fst →
      (schema.foldl schemaStep d).lookup key = d.lookup key := by
  intro schema
  induction schema with
  | nil => intro d _; rfl
  | cons hd tl ih =>
    intro d hnot
    obtain ⟨k0, kd0⟩ := hd
    have hne : key ≠ k0 := by
      intro h
      exact hnot (by simp [h])
    have hnot2 : key ∉ tl.map Prod.fst := by
      intro h
      exact hnot (by simp [h])
    rw [List.foldl_cons, ih _ hnot2, schemaStep_lookup_other _ hne]

theorem schemaLoop_lookup {key : String} {kind : FieldKind} :
    ∀ (schema : List (String × FieldKind)) (d : List (String × JVal)),
      (schema.map Prod.fst).Nodup → (key, kind) ∈ schema →
      (schema.foldl schemaStep d).lookup key =
        some (coerceVal kind (dictGet key d)) := by
  intro schema
  induction schema with
  | nil => intro d _ h; cases h
  | cons hd tl ih =>
    intro d hnd hmem
    obtain ⟨k0, kd0⟩ := hd
    rw [List.map_cons] at hnd
    obtain ⟨hk0not, hndtl⟩ := List.nodup_cons.mp hnd
    rcases List.mem_cons.mp hmem with heq | htail
    · cases heq
      rw [List.foldl_cons,
        schemaLoop_lookup_notin tl _ (by simpa using hk0not),
        schemaStep_lookup_self]
    · have hne : key ≠ k0 := by
        intro h
        subst h
        exact hk0not (by simpa using List.mem_map_of_mem Prod.fst htail)
      rw [List.foldl_cons, ih _ hndtl htail]
      have : dictGet key (schemaStep d (k0, kd0)) = dictGet key d := by
        unfold dictGet
        rw [schemaStep_lookup_other _ hne]
      rw [this]

/-- The schema keys are pairwise distinct. -/
theorem schema_keys_nodup : (SCHEMA.map Prod.fst).Nodup := by decide

/-- **C4 counterexample.** The claim says the coercion never raises once some
JSON was extracted; but when the chairman's reply is `[]` — valid JSON that
is not an object — the very first `synthesis.get(key)` of the validation loop
raises `AttributeError` and the run aborts, contradicting the claim. -/
theorem C4_counterexample :
    stage3_chairman (true, "[]") = .error (attrErrMsg "list" "get") ∧
    run_council "q" wResOk (fun _ => (true, "rev")) (true, "[]") false =
      .error (attrErrMsg "list" "get") := by
  constructor
  · rfl
  · have hs1 := stage1_ok wResOk (by decide)
    rcases hst : stage2_reviews (partitionResults (COUNCILORS.zip wResOk)).1
      (fun _ => (true, "rev")) with ⟨rs, es⟩
    simp [run_council, hs1, hst]
    rfl

/-- **C4 (amended).** Provided the extracted JSON value is an object, the
`_SCHEMA` validation never raises: every expected field is checked against
its expected shape, a well-shaped field is kept, and a wrong-shape field is
replaced — by the empty list for list fields, by `str(value)` for text fields
holding a non-null value, and by the field's default for text fields that are
missing or null.  On a non-object value the loop's first attribute access
raises instead (see the counterexample). -/
theorem C4_schema_coercion :
    (∀ fields, validateSchema (.obj fields) = .ok (SCHEMA.foldl schemaStep fields)) ∧
    (∀ fields key kind, (key, kind) ∈ SCHEMA →
      (SCHEMA.foldl schemaStep fields).lookup key =
        some (coerceVal kind (dictGet key fields))) ∧
    (∀ v, (∀ fields, v ≠ .obj fields) →
      validateSchema v = .error (attrErrMsg (pyTypeName v) "get")) := by
  refine ⟨fun fields => rfl, ?_, ?_⟩
  · intro fields key kind hmem
    exact schemaLoop_lookup SCHEMA fields schema_keys_nodup hmem
  · intro v hne
    cases v with
    | obj fs => exact absurd rfl (hne fs)
    | null => rfl
    | bool b => rfl
    | num lex => rfl
    | str s => rfl
    | arr l => rfl

/-- Wrong-shape synthesis fields for the C4 witness: a numeric narrative, a
string where a list is expected, a null confidence. -/
def wBadFields : List (String × JVal) :=
  [("executive_summary", .num "7"),
   ("deliverables", .str "nope"),
   ("confidence", .null)]

theorem C4_schema_coercion_witness :
    validateSchema (.obj wBadFields) = .ok (SCHEMA.foldl schemaStep wBadFields) ∧
    (SCHEMA.foldl schemaStep wBadFields).lookup "executive_summary" =
      some (.str "7") ∧
    (SCHEMA.foldl schemaStep wBadFields).lookup "deliverables" = some (.arr []) ∧
    (SCHEMA.foldl schemaStep wBadFields).lookup "confidence" =
      some (.str "unknown") ∧
    validateSchema (.str "plain text") =
      .error (attrErrMsg "str" "get") := by
  refine ⟨C4_schema_coercion.1 wBadFields, ?_, ?_, ?_,
    C4_schema_coercion.2.2 (.str "plain text") (fun fields h => by cases h)⟩
  · have h := C4_schema_coercion.2.1 wBadFields "executive_summary" (.fstr "")
      (by decide)
    simpa using h
  · have h := C4_schema_coercion.2.1 wBadFields "deliverables" .flist (by decide)
    simpa using h
  · have h := C4_schema_coercion.2.1 wBadFields "confidence" (.fstr "unknown")
      (by decide)
    simpa using h
